import Mathlib

/-!
Verification development for the blood-bank backend core: donation
eligibility, reward progression, geo-matching and the blood-request
lifecycle.  The definitions below are shallow embeddings of the
JavaScript route handlers and Mongoose model hooks; dates are modelled
as civil (year, month, day) triples mapped to day numbers with the
standard Gregorian algorithm, mirroring JavaScript `Date` semantics at
day granularity (months are 0-based, as in `getMonth`/`setMonth`, and
out-of-range month/day values normalise arithmetically, as in
`new Date(y, m, d)`).
-/

namespace BloodBank

/-- Day number of a Gregorian civil date (1-based month `m`), days
counted from 1970-01-01; the standard days-from-civil algorithm.  The
formula is linear in `d`, so out-of-range day values normalise exactly
as JavaScript `Date` does. -/
def daysFromCivil (y m d : Int) : Int :=
  let y2 := if m ≤ 2 then y - 1 else y
  let era := y2.fdiv 400
  let yoe := y2 - era * 400
  let mp := (m + 9).emod 12
  let doy := (153 * mp + 2) / 5 + d - 1
  let doe := yoe * 365 + yoe / 4 - yoe / 100 + doy
  era * 146097 + doe - 719468

/-- Day number of a JavaScript-style date given a 0-based month that may
lie outside `[0, 11]` and a day that may overflow the month, exactly the
normalisation `new Date(y, m, d)` performs. -/
def mkDay (y m d : Int) : Int :=
  daysFromCivil (y + m.fdiv 12) (m.emod 12 + 1) d

/-- A civil date as JavaScript exposes it: `month` is 0-based
(`getMonth`). -/
structure Civil where
  year : Int
  month : Int
  day : Int
deriving DecidableEq, Repr

/-- Day number of a civil date. -/
def Civil.toDay (c : Civil) : Int := mkDay c.year c.month c.day

/-- Day number of `c` after `d.setMonth(d.getMonth() + k)`: the month
field is shifted and the result renormalised, day-of-month overflow
rolling forward, exactly as JavaScript does. -/
def Civil.addMonths (c : Civil) (k : Int) : Int :=
  mkDay c.year (c.month + k) c.day

/-- Donor reward levels. -/
inductive Level where
  | Bronze
  | Silver
  | Gold
  | Platinum
deriving DecidableEq, Repr

/-- `calculateUserLevel` from the donation route: level from the
cumulative donation count. -/
def calculateUserLevel (donationCount : Nat) : Level :=
  if donationCount ≥ 50 then .Platinum
  else if donationCount ≥ 25 then .Gold
  else if donationCount ≥ 10 then .Silver
  else .Bronze

/-- `calculateLevelProgress` from the donation route, over exact
rationals. -/
def calculateLevelProgress (donationCount : Nat) : ℚ :=
  if donationCount ≥ 50 then 100
  else if donationCount ≥ 25 then
    min (((donationCount : ℚ) - 25) / 25 * 100) 100
  else if donationCount ≥ 10 then
    min (((donationCount : ℚ) - 10) / 15 * 100) 100
  else min ((donationCount : ℚ) / 10 * 100) 100

/-- Progression state of a user document, as the donation route reads
and writes it. -/
structure UserRec where
  lastDonation : Option Int
  donationCount : Nat
  rewardPoints : Nat
  livesImpacted : Nat
  streak : Nat
  level : Level
  levelProgress : ℚ
  badges : List String
  nextEligibleDate : Option Int
deriving DecidableEq, Repr

/-- A stored donation document (the fields the routes consult). -/
structure DonationRec where
  donor : Nat
  donationDate : Int
  units : ℚ
  bloodBank : Nat
  bloodGroup : String
deriving DecidableEq, Repr

/-- One per-blood-type inventory cell of a blood bank. -/
structure InvCell where
  bank : Nat
  group : String
  units : ℚ
deriving DecidableEq, Repr

/-- Store state touched by the donation route: the donation collection,
the submitting user's document, the set of existing blood-bank ids and
the banks' inventories. -/
structure DonationState where
  donations : List DonationRec
  user : UserRec
  banks : List Nat
  inventory : List InvCell
deriving DecidableEq, Repr

/-- Request body of the donation route. -/
structure SubmitInput where
  bloodBank : Nat
  units : ℚ
  donationDate : Civil
  bloodGroup : String
deriving DecidableEq, Repr

/-- Outcome classification of the donation route. -/
inductive SubmitOutcome where
  | invalidInput
  | bankNotFound
  | ineligible (nextEligibleDate : Int)
  | success
deriving DecidableEq, Repr

/-- JavaScript `Set` insertion: append `x` unless already present. -/
def addUnique (l : List String) (x : String) : List String :=
  if x ∈ l then l else l ++ [x]

/-- `updateUserBadges` from the donation route: rebuild the badge array
through a `Set` (dedupe keeping first occurrences), then add
`First Donation` unconditionally, `Regular Donor` at 5 donations and
`Life Saver` at 50 lives impacted. -/
def updateUserBadges (u : UserRec) : UserRec :=
  let b := u.badges.foldl addUnique []
  let b := addUnique b "First Donation"
  let b := if u.donationCount ≥ 5 then addUnique b "Regular Donor" else b
  let b := if u.livesImpacted ≥ 50 then addUnique b "Life Saver" else b
  { u with badges := b }

/-- The eligibility query's filter: a donation by this donor dated at
most 90 days before the current time (`donationDate ≥ now − 90d`). -/
def blocksEligibility (userId : Nat) (nowDay : Int) (d : DonationRec) : Bool :=
  d.donor == userId && decide (nowDay - 90 ≤ d.donationDate)

/-- `$inc` of the bank's per-group inventory: bump the cell if present,
create it at `units` otherwise. -/
def incInventory (inv : List InvCell) (bank : Nat) (group : String) (units : ℚ) :
    List InvCell :=
  if inv.any (fun c => c.bank == bank && c.group == group) then
    inv.map (fun c =>
      if c.bank == bank && c.group == group then { c with units := c.units + units }
      else c)
  else inv ++ [⟨bank, group, units⟩]

/-- The donation route `POST /` of the donations router, end to end:
express-validator checks (`units` in `[1, 5]`, `donationDate` not in the
future), blood-bank existence, the eligibility query against the
donation collection (dated within 90 days before the current time), then
donation creation, the user-stats update (including the streak branch,
which compares the **new** donation date — `user.lastDonation` having
just been overwritten — against three calendar months before now), next
eligible date via `setMonth(+3)`, level recomputation, badge update and
the inventory `$inc`.  Every failure path returns before any write. -/
def submitDonation (st : DonationState) (userId : Nat) (inp : SubmitInput)
    (now : Civil) : SubmitOutcome × DonationState :=
  if ¬ (1 ≤ inp.units ∧ inp.units ≤ 5 ∧ inp.donationDate.toDay ≤ now.toDay) then
    (.invalidInput, st)
  else if ¬ inp.bloodBank ∈ st.banks then
    (.bankNotFound, st)
  else
    match st.donations.find? (blocksEligibility userId now.toDay) with
    | some d => (.ineligible (d.donationDate + 90), st)
    | none =>
      let newDonation : DonationRec :=
        ⟨userId, inp.donationDate.toDay, inp.units, inp.bloodBank, inp.bloodGroup⟩
      let u := st.user
      let u := { u with
        lastDonation := some inp.donationDate.toDay,
        donationCount := u.donationCount + 1,
        rewardPoints := u.rewardPoints + 100,
        livesImpacted := u.livesImpacted + 3 }
      let threeMonthsAgo := now.addMonths (-3)
      let u :=
        if inp.donationDate.toDay ≥ threeMonthsAgo then
          let s := u.streak + 1
          { u with streak := s, rewardPoints := u.rewardPoints + s * 10 }
        else { u with streak := 1 }
      let u := { u with
        nextEligibleDate := some (inp.donationDate.addMonths 3),
        level := calculateUserLevel u.donationCount,
        levelProgress := calculateLevelProgress u.donationCount }
      let u := updateUserBadges u
      (.success,
        { st with
          donations := st.donations ++ [newDonation],
          user := u,
          inventory := incInventory st.inventory inp.bloodBank inp.bloodGroup inp.units })

/-- The specification's eligibility window: some prior donation by this
donor is dated in `[proposedDate − 90d, proposedDate)`.  Written from
the specification for comparison with the route's query. -/
def specPriorInWindow (donations : List DonationRec) (userId : Nat)
    (proposedDay : Int) : Prop :=
  ∃ d ∈ donations, d.donor = userId ∧
    proposedDay - 90 ≤ d.donationDate ∧ d.donationDate < proposedDay

instance (donations : List DonationRec) (userId : Nat) (proposedDay : Int) :
    Decidable (specPriorInWindow donations userId proposedDay) := by
  unfold specPriorInWindow; infer_instance

/-- The specification's streak rule: first-ever donation gives streak 1;
otherwise increment when the gap from the prior `lastDonationDate` to
the new date is at most 90 days, else reset to 1.  Written from the
specification for comparison with the route's update. -/
def specStreakUpdate (priorLast : Option Int) (newDay : Int) (priorStreak : Nat) :
    Nat :=
  match priorLast with
  | none => 1
  | some t => if newDay - t ≤ 90 then priorStreak + 1 else 1

/-- Urgency levels of a blood request. -/
inductive Urgency where
  | normal
  | urgent
  | critical
deriving DecidableEq, Repr

/-- The `$maxDistance` the request-creation route passes to the donor
query: the urgency ternary (critical gives 100000, anything else 50000) (metres). -/
def searchRadius (u : Urgency) : ℚ :=
  if u = .critical then 100000 else 50000

/-- A user document as the donor search sees it: the donor flag, the
blood group, and the spherical distance (metres) from the request's
location, as computed by the store's `$near` geo index. -/
structure GeoUser where
  ident : Nat
  isDonor : Bool
  bloodGroup : String
  distMeters : ℚ
deriving DecidableEq, Repr

/-- The donor query of the request-creation route: users with
`isDonor: true`, the requested blood group, and `$near`/`$maxDistance`
within the urgency-scaled radius (`$maxDistance` is inclusive).  A pure
read: it returns a sublist of the user collection. -/
def findCandidates (users : List GeoUser) (group : String) (urg : Urgency) :
    List GeoUser :=
  users.filter (fun u =>
    u.isDonor && u.bloodGroup == group && decide (u.distMeters ≤ searchRadius urg))

/-- Top-level status of a blood request. -/
inductive RStatus where
  | pending
  | inProgress
  | fulfilled
  | cancelled
deriving DecidableEq, Repr

/-- Status of a donor-response sub-record. -/
inductive DStatus where
  | pending
  | accepted
  | completed
  | cancelled
deriving DecidableEq, Repr

/-- A donor-response sub-record of a blood request. -/
structure DonorSub where
  donor : Nat
  status : DStatus
deriving DecidableEq, Repr

/-- A blood-request document (the fields the lifecycle touches). -/
structure Request where
  requester : Nat
  status : RStatus
  donors : List DonorSub
  donorsResponded : Nat
deriving DecidableEq, Repr

/-- The pre-save hook of the blood-request schema: when the
`donors` path was modified since load, recompute `donorsResponded` as
the list length.  `old` is the document as loaded, `new` as about to be
saved. -/
def preSaveHook (old new : Request) : Request :=
  if new.donors ≠ old.donors then
    { new with donorsResponded := new.donors.length }
  else new

/-- Membership test of the donor-response list, as both the respond
route and `addDonor` phrase it. -/
def hasDonor (r : Request) (donorId : Nat) : Bool :=
  r.donors.any (fun d => d.donor == donorId)

/-- Push of a fresh pending donor sub-record followed by the explicit
`donorsResponded = donors.length` assignment of the respond route and
the save hook. -/
def pushDonor (r : Request) (donorId : Nat) : Request :=
  let r2 := { r with donors := r.donors ++ [(⟨donorId, .pending⟩ : DonorSub)] }
  preSaveHook r { r2 with donorsResponded := r2.donors.length }

/-- A blood request as the creation route builds and saves it.  The
document is constructed by spreading the whole request body, so the
client can seed the `donors` and `donorsResponded` schema paths; only
`requester` and `status` are overridden after the spread.  On the first
save, the pre-save hook sees the `donors` path as modified exactly when
the body seeded it (a defaulted empty array is not a modification) and
then recomputes `donorsResponded` as the list length; when `donors` was
not seeded, a seeded `donorsResponded` value is persisted as sent. -/
def createRequest (requester : Nat) (status : RStatus)
    (seedDonors : Option (List DonorSub)) (seedResponded : Option Nat) :
    Request :=
  let donors := seedDonors.getD []
  let responded :=
    match seedDonors with
    | some l => l.length
    | none => seedResponded.getD 0
  ⟨requester, status, donors, responded⟩

/-- A request store keyed by id. -/
abbrev ReqStore := List (Nat × Request)

/-- `findById` over the request store. -/
def lookupReq (reqs : ReqStore) (id : Nat) : Option Request :=
  (reqs.find? (fun p => p.1 == id)).map (fun p => p.2)

/-- Write-back of a saved request document. -/
def setReq (reqs : ReqStore) (id : Nat) (r : Request) : ReqStore :=
  reqs.map (fun p => if p.1 == id then (p.1, r) else p)

/-- Outcome classification of the respond route. -/
inductive RespondOutcome where
  | notFound
  | duplicate
  | ok
deriving DecidableEq, Repr

/-- The respond route `POST /:id/respond`: 404 when the request is
absent; an explicit duplicate error (no save) when the donor is already
listed; otherwise push one pending sub-record, recompute
`donorsResponded`, and save. -/
def respondToRequest (reqs : ReqStore) (id donorId : Nat) :
    RespondOutcome × ReqStore :=
  match lookupReq reqs id with
  | none => (.notFound, reqs)
  | some r =>
    if hasDonor r donorId then (.duplicate, reqs)
    else (.ok, setReq reqs id (pushDonor r donorId))

/-- Outcome classification of the status-update route. -/
inductive UpdateOutcome where
  | notFound
  | notAuthorized
  | ok
deriving DecidableEq, Repr

/-- The status-update route `PATCH /:id/status`: 404 when absent, 403
unless the caller is the requester, then the status is assigned
unconditionally — no guard on the current status — and the document
saved. -/
def updateStatus (reqs : ReqStore) (id : Nat) (caller : Nat) (s : RStatus) :
    UpdateOutcome × ReqStore :=
  match lookupReq reqs id with
  | none => (.notFound, reqs)
  | some r =>
    if r.requester ≠ caller then (.notAuthorized, reqs)
    else (.ok, setReq reqs id (preSaveHook r { r with status := s }))

/-- `addDonor` schema method: guarded push then save; a duplicate id is
a no-op without save. -/
def addDonor (r : Request) (donorId : Nat) : Request :=
  if ¬ hasDonor r donorId then pushDonor r donorId else r

/-- Status assignment of the first sub-record of the given donor, as
`updateDonorStatus` finds and mutates it. -/
def setFirstDonorStatus : List DonorSub → Nat → DStatus → List DonorSub
  | [], _, _ => []
  | d :: ds, i, s =>
    if d.donor == i then { d with status := s } :: ds
    else d :: setFirstDonorStatus ds i s

/-- `updateDonorStatus` schema method: set the found sub-record's status
and save; absent donor is a no-op without save. -/
def updateDonorStatus (r : Request) (donorId : Nat) (s : DStatus) : Request :=
  if hasDonor r donorId then
    preSaveHook r { r with donors := setFirstDonorStatus r.donors donorId s }
  else r

/-- Request-level effect of the respond route (the duplicate branch
leaves the document untouched). -/
def respondStep (r : Request) (donorId : Nat) : Request :=
  if hasDonor r donorId then r else pushDonor r donorId

/-- Request-level effect of the status-update route. -/
def statusStep (r : Request) (caller : Nat) (s : RStatus) : Request :=
  if r.requester ≠ caller then r
  else preSaveHook r { r with status := s }

/-- Requests reachable from creation through the repository's
operations: donor responses, status updates, and the two schema
methods.  Creation is restricted to bodies that do not abuse the spread:
either no donor-related path is seeded, or the seeded donor list names
each donor at most once (in which case the save hook recomputes the
count, so a seeded `donorsResponded` value is harmless). -/
inductive ReachableReq : Request → Prop where
  | created (requester : Nat) (status : RStatus) :
      ReachableReq (createRequest requester status none none)
  | createdSeeded (requester : Nat) (status : RStatus)
      (seed : List DonorSub) (seedResponded : Option Nat)
      (hn : (seed.map DonorSub.donor).Nodup) :
      ReachableReq (createRequest requester status (some seed) seedResponded)
  | responded (r : Request) (donorId : Nat) :
      ReachableReq r → ReachableReq (respondStep r donorId)
  | statusChanged (r : Request) (caller : Nat) (s : RStatus) :
      ReachableReq r → ReachableReq (statusStep r caller s)
  | donorAdded (r : Request) (donorId : Nat) :
      ReachableReq r → ReachableReq (addDonor r donorId)
  | donorStatusChanged (r : Request) (donorId : Nat) (s : DStatus) :
      ReachableReq r → ReachableReq (updateDonorStatus r donorId s)

/-- Level table exactly as the specification writes it (ranges on `n`),
to be compared with `calculateUserLevel`. -/
def levelTable (n : Nat) : Level :=
  if n ≤ 9 then .Bronze
  else if n ≤ 24 then .Silver
  else if n ≤ 49 then .Gold
  else .Platinum

/-- Level-progress table exactly as the specification writes it
(`min(x, 1) × 100` per row), to be compared with
`calculateLevelProgress`. -/
def levelProgressTable (n : Nat) : ℚ :=
  if n ≤ 9 then min ((n : ℚ) / 10) 1 * 100
  else if n ≤ 24 then min (((n : ℚ) - 10) / 15) 1 * 100
  else if n ≤ 49 then min (((n : ℚ) - 25) / 25) 1 * 100
  else 100

/-- A sample submission time: 2024-06-15 (month is 0-based). -/
def sampleNow : Civil := ⟨2024, 5, 15⟩

/-- A user document with all progression fields at their schema
defaults. -/
def freshUser : UserRec := ⟨none, 0, 0, 0, 0, .Bronze, 0, [], none⟩

/-- A valid submission dated at the submission time. -/
def sampleInput : SubmitInput := ⟨1, 2, ⟨2024, 5, 15⟩, "A+"⟩

/-- A valid submission dated ten days before `sampleNow`. -/
def backInput : SubmitInput := ⟨1, 2, ⟨2024, 5, 5⟩, "A+"⟩

/-- Store with a fresh user, one blood bank and no donations. -/
def st0 : DonationState := ⟨[], freshUser, [1], []⟩

/-- Store where donor 7 has one donation 95 days before `sampleNow`. -/
def stWindow : DonationState :=
  ⟨[⟨7, sampleNow.toDay - 95, 1, 1, "A+"⟩], freshUser, [1], []⟩

/-- A user whose last donation was 200 days before `sampleNow`, with a
running streak of 5. -/
def gapUser : UserRec :=
  ⟨some (sampleNow.toDay - 200), 3, 500, 9, 5, .Bronze, 30,
    ["First Donation"], some (sampleNow.toDay - 110)⟩

/-- Store for `gapUser`, the matching donation on record. -/
def stGap : DonationState :=
  ⟨[⟨7, sampleNow.toDay - 200, 1, 1, "A+"⟩], gapUser, [1], []⟩

/-- Store where donor 7 donated 39 days before `sampleNow`, so a new
submission is ineligible. -/
def stBlocked : DonationState :=
  ⟨[⟨7, sampleNow.toDay - 39, 1, 1, "A+"⟩], freshUser, [1], []⟩

/-- A valid submission dated 2024-03-01, where three calendar months is
92 days. -/
def marchInput : SubmitInput := ⟨1, 2, ⟨2024, 2, 1⟩, "A+"⟩

/-- Submission time 2024-03-01. -/
def marchNow : Civil := ⟨2024, 2, 1⟩

/-- A fulfilled request of requester 9 with no donor responses. -/
def reqSample : Request := ⟨9, .fulfilled, [], 0⟩

/-- A one-request store holding `reqSample` under id 1. -/
def reqsSample : ReqStore := [(1, reqSample)]

/-- Donor exactly at the critical boundary distance. -/
def boundaryDonor : GeoUser := ⟨21, true, "A+", 100000⟩

/-- Donor one metre beyond the critical boundary distance. -/
def beyondDonor : GeoUser := ⟨22, true, "A+", 100001⟩

theorem min_one_mul_hundred (a : ℚ) : min a 1 * 100 = min (a * 100) 100 := by
  rcases le_total a 1 with h | h
  · rw [min_eq_left h, min_eq_left (by linarith : a * 100 ≤ 100)]
  · rw [min_eq_right h, min_eq_right (by linarith : (100 : ℚ) ≤ a * 100)]
    norm_num

/-- C4: for every donation count `n`, the recomputed level and
level-progress equal the specification table (hence also at the
boundaries 9, 10, 24, 25, 49, 50), and after every accepted donation the
user's level and progress are recomputed from the new donation count,
which the route obtained by incrementing the stored count by one — the
level is never incremented independently. -/
theorem level_and_progress_match_spec_table :
    (∀ n, calculateUserLevel n = levelTable n ∧
      calculateLevelProgress n = levelProgressTable n) ∧
    (∀ st userId inp now,
      (submitDonation st userId inp now).1 = SubmitOutcome.success →
      (submitDonation st userId inp now).2.user.level =
          calculateUserLevel (submitDonation st userId inp now).2.user.donationCount ∧
        (submitDonation st userId inp now).2.user.levelProgress =
          calculateLevelProgress (submitDonation st userId inp now).2.user.donationCount ∧
        (submitDonation st userId inp now).2.user.donationCount =
          st.user.donationCount + 1) := by
  constructor
  · intro n
    constructor
    · unfold calculateUserLevel levelTable
      split_ifs <;> first | rfl | (exfalso; omega)
    · unfold calculateLevelProgress levelProgressTable
      split_ifs <;>
        first
          | rfl
          | exact (min_one_mul_hundred _).symm
          | (exfalso; omega)
  · intro st userId inp now
    simp only [submitDonation]
    split
    · intro h; exact absurd h (by simp)
    · split
      · intro h; exact absurd h (by simp)
      · split
        · intro h; exact absurd h (by simp)
        · intro _
          refine ⟨rfl, rfl, ?_⟩
          split <;> rfl

/-- Witness for C4 at a concrete accepted donation. -/
theorem level_and_progress_match_spec_table_witness :
    (submitDonation st0 7 sampleInput sampleNow).2.user.level =
        calculateUserLevel (submitDonation st0 7 sampleInput sampleNow).2.user.donationCount ∧
      (submitDonation st0 7 sampleInput sampleNow).2.user.levelProgress =
        calculateLevelProgress (submitDonation st0 7 sampleInput sampleNow).2.user.donationCount ∧
      (submitDonation st0 7 sampleInput sampleNow).2.user.donationCount =
        st0.user.donationCount + 1 :=
  level_and_progress_match_spec_table.2 st0 7 sampleInput sampleNow (by decide)

theorem blocksEligibility_iff (userId : Nat) (n : Int) (d : DonationRec) :
    blocksEligibility userId n d = true ↔
      d.donor = userId ∧ n - 90 ≤ d.donationDate := by
  simp [blocksEligibility]

/-- C1 counterexample: donor 7 has a prior donation dated 95 days before
the submission time, and proposes a donation dated 10 days ago; the
claimed window `[proposedDate − 90d, proposedDate)` contains the prior
donation, yet the route accepts, because its query measures 90 days back
from the submission time, not from the proposed date. -/
theorem eligibility_window_cex :
    (submitDonation stWindow 7 backInput sampleNow).1 = SubmitOutcome.success ∧
    specPriorInWindow stWindow.donations 7 backInput.donationDate.toDay := by
  decide

/-- C1 as amended: under valid input (units in range, date not in the
future, bank exists) the route accepts iff the donor has no prior
donation dated within the 90 days preceding the submission time
(`now − 90d ≤ date`), regardless of the proposed date; an ineligible
donor gets a classified ineligible result carrying the blocking
donation's date plus 90 days, never an exception. -/
theorem eligibility_checks_ninety_days_before_now
    (st : DonationState) (userId : Nat) (inp : SubmitInput) (now : Civil)
    (hu1 : 1 ≤ inp.units) (hu2 : inp.units ≤ 5)
    (hd : inp.donationDate.toDay ≤ now.toDay)
    (hb : inp.bloodBank ∈ st.banks) :
    ((submitDonation st userId inp now).1 = SubmitOutcome.success ↔
      ¬ ∃ d ∈ st.donations, d.donor = userId ∧ now.toDay - 90 ≤ d.donationDate) ∧
    (∀ t, (submitDonation st userId inp now).1 = SubmitOutcome.ineligible t →
      ∃ d ∈ st.donations, d.donor = userId ∧ now.toDay - 90 ≤ d.donationDate ∧
        t = d.donationDate + 90) := by
  simp only [submitDonation]
  rw [if_neg (not_not_intro ⟨hu1, hu2, hd⟩), if_neg (not_not_intro hb)]
  rcases hfind : st.donations.find? (blocksEligibility userId now.toDay) with _ | d
  · rw [List.find?_eq_none] at hfind
    constructor
    · refine iff_of_true rfl ?_
      rintro ⟨d, hmem, hdon, hle⟩
      exact hfind d hmem ((blocksEligibility_iff userId now.toDay d).mpr ⟨hdon, hle⟩)
    · intro t ht
      exact absurd ht (by simp)
  · have hmem := List.mem_of_find?_eq_some hfind
    have hp := (blocksEligibility_iff userId now.toDay d).mp
      (List.find?_some hfind)
    constructor
    · apply iff_of_false (by simp)
      intro hno
      exact hno ⟨d, hmem, hp.1, hp.2⟩
    · intro t ht
      refine ⟨d, hmem, hp.1, hp.2, ?_⟩
      cases ht
      rfl

/-- Witness for C1 as amended, at a donor with an empty history. -/
theorem eligibility_checks_ninety_days_before_now_witness :
    ((submitDonation st0 7 sampleInput sampleNow).1 = SubmitOutcome.success ↔
      ¬ ∃ d ∈ st0.donations, d.donor = 7 ∧ sampleNow.toDay - 90 ≤ d.donationDate) ∧
    (∀ t, (submitDonation st0 7 sampleInput sampleNow).1 = SubmitOutcome.ineligible t →
      ∃ d ∈ st0.donations, d.donor = 7 ∧ sampleNow.toDay - 90 ≤ d.donationDate ∧
        t = d.donationDate + 90) :=
  eligibility_checks_ninety_days_before_now st0 7 sampleInput sampleNow
    (by decide) (by decide) (by decide) (by decide)

/-- C2: the code contradicts the claimed streak rule.  Donor 7's prior
`lastDonation` is 200 days old and the streak is 5; on a new donation
dated today, the claim (and the specification's streak law) requires a
reset to 1, but the route first overwrites `user.lastDonation` with the
new date and then compares that same new date against three months
before now, so it increments the streak to 6 instead. -/
theorem streak_ignores_prior_gap :
    (submitDonation stGap 7 sampleInput sampleNow).1 = SubmitOutcome.success ∧
    (submitDonation stGap 7 sampleInput sampleNow).2.user.streak = 6 ∧
    specStreakUpdate stGap.user.lastDonation sampleInput.donationDate.toDay
      stGap.user.streak = 1 := by
  decide

/-- C3: the code contradicts the claimed point award.  A first-ever
donation dated today earns 110 points, not the claimed 100: the streak
branch sees the just-written `lastDonation` (the new date) within three
months of now and adds the `streak × 10` bonus for the fresh streak of
1. -/
theorem first_donation_awards_bonus :
    st0.user.rewardPoints = 0 ∧ st0.user.lastDonation = none ∧
    st0.donations = [] ∧
    (submitDonation st0 7 sampleInput sampleNow).1 = SubmitOutcome.success ∧
    (submitDonation st0 7 sampleInput sampleNow).2.user.rewardPoints = 110 ∧
    (submitDonation st0 7 sampleInput sampleNow).2.user.streak = 1 := by
  decide

/-- C5 counterexample: a donation accepted on 2024-03-01 gets
`nextEligibleDate` = 2024-06-01, which is 92 days later, not the claimed
exactly 90 days. -/
theorem nextEligible_not_ninety_days_cex :
    (submitDonation st0 7 marchInput marchNow).1 = SubmitOutcome.success ∧
    (submitDonation st0 7 marchInput marchNow).2.user.nextEligibleDate =
      some (marchInput.donationDate.toDay + 92) ∧
    (submitDonation st0 7 marchInput marchNow).2.user.nextEligibleDate ≠
      some (marchInput.donationDate.toDay + 90) := by
  decide

/-- C5 as amended: after every accepted donation, `nextEligibleDate` is
the donation date advanced by three calendar months (JavaScript
`setMonth` semantics), which is not always 90 days; on the ineligible
path, the reported `nextEligibleDate` is the blocking donation's date
plus exactly 90 days. -/
theorem nextEligible_three_calendar_months
    (st : DonationState) (userId : Nat) (inp : SubmitInput) (now : Civil) :
    ((submitDonation st userId inp now).1 = SubmitOutcome.success →
      (submitDonation st userId inp now).2.user.nextEligibleDate =
        some (inp.donationDate.addMonths 3)) ∧
    (∀ t, (submitDonation st userId inp now).1 = SubmitOutcome.ineligible t →
      ∃ d ∈ st.donations, d.donor = userId ∧ now.toDay - 90 ≤ d.donationDate ∧
        t = d.donationDate + 90) := by
  simp only [submitDonation]
  split
  · exact ⟨fun h => absurd h (by simp), fun t ht => absurd ht (by simp)⟩
  · split
    · exact ⟨fun h => absurd h (by simp), fun t ht => absurd ht (by simp)⟩
    · rcases hfind : st.donations.find? (blocksEligibility userId now.toDay)
        with _ | d
      · exact ⟨fun _ => rfl, fun t ht => absurd ht (by simp)⟩
      · have hmem := List.mem_of_find?_eq_some hfind
        have hp := (blocksEligibility_iff userId now.toDay d).mp
          (List.find?_some hfind)
        refine ⟨fun h => absurd h (by simp), fun t ht => ⟨d, hmem, hp.1, hp.2, ?_⟩⟩
        cases ht
        rfl

/-- Witness for C5 as amended: the accepted-path equation at the March
donation and the ineligible-path equation at a blocked donor. -/
theorem nextEligible_three_calendar_months_witness :
    (submitDonation st0 7 marchInput marchNow).2.user.nextEligibleDate =
      some (marchInput.donationDate.addMonths 3) ∧
    ∃ d ∈ stBlocked.donations, d.donor = 7 ∧
      sampleNow.toDay - 90 ≤ d.donationDate ∧
      sampleNow.toDay - 39 + 90 = d.donationDate + 90 :=
  ⟨(nextEligible_three_calendar_months st0 7 marchInput marchNow).1 (by decide),
   (nextEligible_three_calendar_months stBlocked 7 sampleInput sampleNow).2
     (sampleNow.toDay - 39 + 90) (by decide)⟩

/-- C10: whenever the donation route fails — invalid input, unknown
blood bank, or ineligible donor — the returned store state is exactly
the input state: no donation is created, the user's progression fields
are untouched, and no inventory count changes. -/
theorem submitDonation_failure_preserves_state
    (st : DonationState) (userId : Nat) (inp : SubmitInput) (now : Civil)
    (h : (submitDonation st userId inp now).1 ≠ SubmitOutcome.success) :
    (submitDonation st userId inp now).2 = st := by
  revert h
  simp only [submitDonation]
  split
  · intro _; rfl
  · split
    · intro _; rfl
    · split
      · intro _; rfl
      · intro h; exact absurd rfl h

/-- Witness for C10: an ineligible submission leaves the store
unchanged. -/
theorem submitDonation_failure_preserves_state_witness :
    (submitDonation stBlocked 7 sampleInput sampleNow).2 = stBlocked :=
  submitDonation_failure_preserves_state stBlocked 7 sampleInput sampleNow
    (by decide)

theorem hasDonor_iff (r : Request) (i : Nat) :
    hasDonor r i = true ↔ ∃ d ∈ r.donors, d.donor = i := by
  simp [hasDonor]

theorem lookupReq_setReq (reqs : ReqStore) (id : Nat) (r0 r : Request)
    (h : lookupReq reqs id = some r0) :
    lookupReq (setReq reqs id r) id = some r := by
  induction reqs with
  | nil => simp [lookupReq] at h
  | cons p ps ih =>
    by_cases hp : p.1 = id
    · simp [lookupReq, setReq, hp]
    · have hb : (p.1 == id) = false := by simpa using hp
      have h2 : lookupReq ps id = some r0 := by
        unfold lookupReq at h
        rwa [List.find?_cons_of_neg _ (by simp [hb])] at h
      unfold lookupReq setReq at ih ⊢
      rw [List.map_cons, if_neg (by simp [hb]),
        List.find?_cons_of_neg _ (by simp [hb])]
      exact ih h2

theorem pushDonor_eq (r : Request) (i : Nat) :
    pushDonor r i =
      { r with donors := r.donors ++ [⟨i, DStatus.pending⟩],
               donorsResponded := r.donors.length + 1 } := by
  unfold pushDonor preSaveHook
  rw [if_pos (fun hcontra => by simpa using congrArg List.length hcontra)]
  simp

/-- C6: the donor search radius is exactly 100000 m for critical
urgency and 50000 m otherwise; the query keeps exactly the users with
`isDonor` and the requested blood group within that (inclusive)
distance, so a donor at the boundary is included and one a metre beyond
is excluded; and the search is a pure read returning a sublist of the
user collection. -/
theorem findCandidates_radius_and_filter :
    searchRadius Urgency.critical = 100000 ∧
    searchRadius Urgency.normal = 50000 ∧
    searchRadius Urgency.urgent = 50000 ∧
    (∀ users g urg (u : GeoUser), u ∈ findCandidates users g urg ↔
      u ∈ users ∧ u.isDonor = true ∧ u.bloodGroup = g ∧
        u.distMeters ≤ searchRadius urg) ∧
    (∀ users g urg, (findCandidates users g urg).Sublist users) ∧
    (∀ users g urg (u : GeoUser), u ∈ users → u.isDonor = true →
      u.bloodGroup = g → u.distMeters = searchRadius urg →
      u ∈ findCandidates users g urg) ∧
    (∀ users g urg (u : GeoUser), u.distMeters = searchRadius urg + 1 →
      u ∉ findCandidates users g urg) := by
  have hmem : ∀ users g urg (u : GeoUser), u ∈ findCandidates users g urg ↔
      u ∈ users ∧ u.isDonor = true ∧ u.bloodGroup = g ∧
        u.distMeters ≤ searchRadius urg := by
    intro users g urg u
    simp [findCandidates, List.mem_filter, and_assoc]
  refine ⟨rfl, rfl, rfl, hmem, fun users g urg => List.filter_sublist _, ?_, ?_⟩
  · intro users g urg u hu hd hg hdist
    exact (hmem users g urg u).mpr ⟨hu, hd, hg, le_of_eq hdist⟩
  · intro users g urg u hdist hin
    have hle := ((hmem users g urg u).mp hin).2.2.2
    rw [hdist] at hle
    linarith

/-- Witness for C6: with critical urgency, a matching donor at exactly
100000 m is found and one at 100001 m is not. -/
theorem findCandidates_radius_and_filter_witness :
    boundaryDonor ∈ findCandidates [boundaryDonor, beyondDonor] "A+" Urgency.critical ∧
    beyondDonor ∉ findCandidates [boundaryDonor, beyondDonor] "A+" Urgency.critical :=
  ⟨findCandidates_radius_and_filter.2.2.2.2.2.1 [boundaryDonor, beyondDonor]
      "A+" Urgency.critical boundaryDonor (by decide) rfl rfl (by decide),
   findCandidates_radius_and_filter.2.2.2.2.2.2 [boundaryDonor, beyondDonor]
      "A+" Urgency.critical beyondDonor (by norm_num [beyondDonor, searchRadius])⟩

/-- C7: responding to an absent request is a NotFound error; a donor
already on the donor-response list gets an explicit duplicate error with
the store unchanged (so the list length is unchanged); otherwise exactly
one pending sub-record for that donor is appended and the response count
updated. -/
theorem respondToRequest_once (reqs : ReqStore) (id donorId : Nat) :
    (lookupReq reqs id = none →
      respondToRequest reqs id donorId = (RespondOutcome.notFound, reqs)) ∧
    (∀ r, lookupReq reqs id = some r → (∃ d ∈ r.donors, d.donor = donorId) →
      respondToRequest reqs id donorId = (RespondOutcome.duplicate, reqs)) ∧
    (∀ r, lookupReq reqs id = some r → (¬ ∃ d ∈ r.donors, d.donor = donorId) →
      (respondToRequest reqs id donorId).1 = RespondOutcome.ok ∧
      lookupReq (respondToRequest reqs id donorId).2 id =
        some { r with donors := r.donors ++ [⟨donorId, DStatus.pending⟩],
                      donorsResponded := r.donors.length + 1 }) := by
  refine ⟨?_, ?_, ?_⟩
  · intro h
    simp [respondToRequest, h]
  · intro r hr hdup
    have hdd : hasDonor r donorId = true := (hasDonor_iff r donorId).mpr hdup
    simp [respondToRequest, hr, hdd]
  · intro r hr hdup
    have hdd : hasDonor r donorId = false := by
      rcases Bool.eq_false_or_eq_true (hasDonor r donorId) with h | h
      · exact absurd ((hasDonor_iff r donorId).mp h) hdup
      · exact h
    constructor
    · simp [respondToRequest, hr, hdd]
    · simp only [respondToRequest, hr, hdd, Bool.false_eq_true, if_false]
      rw [lookupReq_setReq reqs id r _ hr, pushDonor_eq]

/-- Witness for C7: all three branches at a concrete store. -/
theorem respondToRequest_once_witness :
    respondToRequest reqsSample 2 42 = (RespondOutcome.notFound, reqsSample) ∧
    respondToRequest (respondToRequest reqsSample 1 42).2 1 42 =
      (RespondOutcome.duplicate, (respondToRequest reqsSample 1 42).2) ∧
    (respondToRequest reqsSample 1 42).1 = RespondOutcome.ok :=
  ⟨(respondToRequest_once reqsSample 2 42).1 (by decide),
   (respondToRequest_once (respondToRequest reqsSample 1 42).2 1 42).2.1
      { reqSample with donors := [⟨42, DStatus.pending⟩], donorsResponded := 1 }
      (by decide) ⟨⟨42, DStatus.pending⟩, by decide, rfl⟩,
   ((respondToRequest_once reqsSample 1 42).2.2 reqSample (by decide)
      (by decide)).1⟩

theorem setFirstDonorStatus_map (l : List DonorSub) (i : Nat) (s : DStatus) :
    (setFirstDonorStatus l i s).map DonorSub.donor = l.map DonorSub.donor := by
  induction l with
  | nil => rfl
  | cons d ds ih =>
    unfold setFirstDonorStatus
    by_cases hd : d.donor = i
    · simp [hd]
    · rw [if_neg (by simpa using hd)]
      simp [ih]

theorem setFirstDonorStatus_length (l : List DonorSub) (i : Nat) (s : DStatus) :
    (setFirstDonorStatus l i s).length = l.length := by
  have h := congrArg List.length (setFirstDonorStatus_map l i s)
  simpa using h

theorem hasDonor_false_not_mem (r : Request) (i : Nat)
    (h : hasDonor r i = false) : i ∉ r.donors.map DonorSub.donor := by
  intro hmem
  rcases List.mem_map.mp hmem with ⟨d, hd, hdi⟩
  have : hasDonor r i = true := (hasDonor_iff r i).mpr ⟨d, hd, hdi⟩
  rw [h] at this
  exact Bool.false_ne_true this

/-- C8 counterexample: the creation route spreads the request body, so
a client can create a request whose seeded donor list names the same
donor twice (the save hook recomputes the count to the length but never
deduplicates), violating the at-most-once part of the claim; and a body
seeding `donorsResponded` without seeding `donors` persists an
independent count of 42 over an empty list, violating the
count-equals-length part. -/
theorem donor_seeding_at_creation_cex :
    ((createRequest 9 RStatus.inProgress
        (some [⟨5, DStatus.pending⟩, ⟨5, DStatus.pending⟩]) none).donorsResponded = 2 ∧
      ¬ ((createRequest 9 RStatus.inProgress
        (some [⟨5, DStatus.pending⟩, ⟨5, DStatus.pending⟩]) none).donors.map
          DonorSub.donor).Nodup) ∧
    ((createRequest 9 RStatus.inProgress none (some 42)).donorsResponded = 42 ∧
      (createRequest 9 RStatus.inProgress none (some 42)).donors.length = 0) := by
  decide

/-- C8 as amended: for every request reachable from a creation whose
body either seeded no donor-related path or seeded a donor list naming
each donor at most once, through the repository's operations (donor
responses, status updates, the `addDonor` and `updateDonorStatus`
methods), `donorsResponded` equals the donor-response list length — the
explicit assignment and the save hook only ever recompute it as that
length — and each donor appears at most once in the list.  (Creation
itself can break both parts by seeding the spread request body, as the
counterexample shows.) -/
theorem donorsResponded_matches_list (r : Request) (h : ReachableReq r) :
    r.donorsResponded = r.donors.length ∧
    (r.donors.map DonorSub.donor).Nodup := by
  induction h with
  | created u s => exact ⟨rfl, by simp [createRequest]⟩
  | createdSeeded u s seed resp hn =>
    exact ⟨rfl, by simpa [createRequest] using hn⟩
  | responded r donorId hr ih =>
    unfold respondStep
    rcases hb : hasDonor r donorId with _ | _
    · rw [if_neg (by simp [hb]), pushDonor_eq]
      refine ⟨by simp, ?_⟩
      simp only [List.map_append, List.map_cons, List.map_nil]
      rw [List.nodup_append]
      exact ⟨ih.2, List.nodup_singleton _,
        by simpa using hasDonor_false_not_mem r donorId hb⟩
    · rw [if_pos (by simp [hb])]
      exact ih
  | statusChanged r caller s hr ih =>
    unfold statusStep
    by_cases hc : r.requester ≠ caller
    · rw [if_pos hc]; exact ih
    · rw [if_neg hc]
      unfold preSaveHook
      rw [if_neg (by simp)]
      exact ih
  | donorAdded r donorId hr ih =>
    unfold addDonor
    rcases hb : hasDonor r donorId with _ | _
    · rw [if_pos (by simp [hb]), pushDonor_eq]
      refine ⟨by simp, ?_⟩
      simp only [List.map_append, List.map_cons, List.map_nil]
      rw [List.nodup_append]
      exact ⟨ih.2, List.nodup_singleton _,
        by simpa using hasDonor_false_not_mem r donorId hb⟩
    · rw [if_neg (by simp [hb])]
      exact ih
  | donorStatusChanged r donorId s hr ih =>
    unfold updateDonorStatus
    rcases hb : hasDonor r donorId with _ | _
    · rw [if_neg (by simp [hb])]
      exact ih
    · rw [if_pos (by simp [hb])]
      unfold preSaveHook
      split
      · exact ⟨by simp [setFirstDonorStatus_length],
          by simpa [setFirstDonorStatus_map] using ih.2⟩
      · exact ⟨by simp [setFirstDonorStatus_length, ih.1],
          by simpa [setFirstDonorStatus_map] using ih.2⟩

/-- Witness for C8 as amended, at a concrete reachable request: created
with a duplicate-free seeded donor list, one donor responded, then its
sub-status completed. -/
theorem donorsResponded_matches_list_witness :
    (updateDonorStatus
        (respondStep
          (createRequest 1 RStatus.pending (some [⟨8, DStatus.pending⟩]) (some 7))
          5) 5 DStatus.completed).donorsResponded =
      (updateDonorStatus
        (respondStep
          (createRequest 1 RStatus.pending (some [⟨8, DStatus.pending⟩]) (some 7))
          5) 5 DStatus.completed).donors.length ∧
    ((updateDonorStatus
        (respondStep
          (createRequest 1 RStatus.pending (some [⟨8, DStatus.pending⟩]) (some 7))
          5) 5 DStatus.completed).donors.map DonorSub.donor).Nodup :=
  donorsResponded_matches_list _
    (ReachableReq.donorStatusChanged _ 5 DStatus.completed
      (ReachableReq.responded _ 5
        (ReachableReq.createdSeeded 1 RStatus.pending [⟨8, DStatus.pending⟩]
          (some 7) (by decide))))

/-- C9 counterexample: a fulfilled request is moved back to pending by
its requester through the status route, and a donor response on the
same fulfilled request is accepted and changes its donor-response list
— fulfilled is not terminal and closed records are not immutable. -/
theorem fulfilled_not_terminal_cex :
    reqSample.status = RStatus.fulfilled ∧
    (updateStatus reqsSample 1 9 RStatus.pending).1 = UpdateOutcome.ok ∧
    lookupReq (updateStatus reqsSample 1 9 RStatus.pending).2 1 =
      some ⟨9, RStatus.pending, [], 0⟩ ∧
    (respondToRequest reqsSample 1 42).1 = RespondOutcome.ok ∧
    (lookupReq (respondToRequest reqsSample 1 42).2 1).map Request.donors =
      some [⟨42, DStatus.pending⟩] := by
  decide

/-- C9 as amended: the only guards on a top-level status update are
that the request exists and the caller is the requester; any of the
four statuses may then be set regardless of the current status — so
fulfilled and cancelled are not terminal — and a non-duplicate donor
response is accepted regardless of the request's status. -/
theorem status_update_unguarded
    (reqs : ReqStore) (id caller donorId : Nat) (s : RStatus) (r : Request)
    (hr : lookupReq reqs id = some r) :
    (caller = r.requester →
      (updateStatus reqs id caller s).1 = UpdateOutcome.ok ∧
      lookupReq (updateStatus reqs id caller s).2 id =
        some { r with status := s }) ∧
    (hasDonor r donorId = false →
      (respondToRequest reqs id donorId).1 = RespondOutcome.ok) := by
  constructor
  · intro hc
    have hne : ¬ r.requester ≠ caller := by
      rw [hc]; exact fun hcon => hcon rfl
    have hhook : preSaveHook r { r with status := s } = { r with status := s } := by
      unfold preSaveHook
      rw [if_neg (by simp)]
    constructor
    · simp [updateStatus, hr, hne]
    · simp only [updateStatus, hr]
      rw [if_neg hne, hhook]
      exact lookupReq_setReq reqs id r _ hr
  · intro hb
    simp [respondToRequest, hr, hb]

/-- Witness for C9 as amended, at the fulfilled sample request. -/
theorem status_update_unguarded_witness :
    ((updateStatus reqsSample 1 9 RStatus.inProgress).1 = UpdateOutcome.ok ∧
      lookupReq (updateStatus reqsSample 1 9 RStatus.inProgress).2 1 =
        some { reqSample with status := RStatus.inProgress }) ∧
    (respondToRequest reqsSample 1 42).1 = RespondOutcome.ok :=
  ⟨(status_update_unguarded reqsSample 1 9 42 RStatus.inProgress reqSample
      (by decide)).1 rfl,
   (status_update_unguarded reqsSample 1 9 42 RStatus.inProgress reqSample
      (by decide)).2 (by decide)⟩

end BloodBank
